import Mathlib

/-!
Verification development for the `mcp-postgres-full-access` server.

The development shallowly embeds the transaction-lifecycle core of the
server: the statement classifier (`src/lib/utils.ts`), the transaction
registry and monitor (`src/lib/transaction-manager.ts`), and the operation
handlers (`handleExecuteQuery`, `handleExecuteDML`, `handleExecuteCommit`,
`handleExecuteRollback`, the `execute_dml_ddl_dcl_tcl` tool wrapper, and the
shutdown drain `cleanupTransactions`).

SQL text is represented as `List Char` (JS strings, indexed by code unit).
Database round trips are suspension points of the cooperative scheduler;
their outcomes (success/failure) are supplied as Boolean oracles.  Pooled
clients are identified by the id of the transaction that leased them; the
effects on the outside world (queries issued, release calls, successful
returns to the pool) are recorded in logs inside the explicit system state.
-/

namespace PgMcp

/-- Model of JS `String.prototype.toUpperCase` restricted to the characters
the classifier cares about (ASCII letters). -/
def upChars (l : List Char) : List Char := l.map Char.toUpper

/-- Model of JS `String.prototype.trim`: whitespace removed from both ends. -/
def trimChars (l : List Char) : List Char :=
  ((l.dropWhile Char.isWhitespace).reverse.dropWhile Char.isWhitespace).reverse

/-- Model of JS `String.prototype.includes`: `containsList needle hay` is true
iff `needle` occurs contiguously inside `hay`. -/
def containsList (needle : List Char) : List Char → Bool
  | [] => needle.isEmpty
  | c :: rest => needle.isPrefixOf (c :: rest) || containsList needle rest

/-- `isReadOnlyQuery` from `src/lib/utils.ts`: normalize by trim +
upper-case, then test the leading keyword; `SHOW` additionally requires that
`CREATE` occurs nowhere in the normalized statement. -/
def isReadOnlyQuery (sql : List Char) : Bool :=
  let normalizedSql := upChars (trimChars sql)
  ("SELECT".data.isPrefixOf normalizedSql) ||
  ("WITH".data.isPrefixOf normalizedSql) ||
  ("EXPLAIN".data.isPrefixOf normalizedSql) ||
  (("SHOW".data.isPrefixOf normalizedSql) && !(containsList "CREATE".data normalizedSql))

/-- Lifecycle state of a tracked transaction (`src/lib/types.ts`):
`active` or `terminating`. -/
inductive TxState
  | active
  | terminating
deriving DecidableEq, Repr

/-- `TrackedTransaction` from `src/lib/types.ts`, minus the raw client
object: the client is identified by the transaction id (each write-execute
leases a fresh pooled client and registers it under a fresh id). -/
structure TEntry where
  startTime : Nat
  sqlPreview : List Char
  state : TxState
  released : Bool
deriving DecidableEq, Repr

/-- Global mutable state of the process: the object heap for tracked
transactions (entries persist even after deletion from the registry map,
because handlers keep direct references), the registry key list in insertion
order (the `activeTransactions` Map), and observation logs: queries issued
per client, `safelyReleaseClient` invocations, successful returns to the
pool, logged errors, and pool acquisitions. -/
structure SysState where
  heap : List (String × TEntry)
  registry : List String
  queryLog : List (String × List Char)
  releaseCalls : List String
  poolReleased : List String
  errorLog : List String
  connects : List String
deriving DecidableEq, Repr

def initState : SysState := ⟨[], [], [], [], [], [], []⟩

/-- Read a tracked-transaction object from the heap. -/
def lookupTx : List (String × TEntry) → String → Option TEntry
  | [], _ => none
  | (k, e) :: h, id => if k = id then some e else lookupTx h id

/-- Mutate the heap object with key `id` (observationally: later lookups of
`id` see the new value, all other keys are untouched). -/
def setTx (st : SysState) (id : String) (e : TEntry) : SysState :=
  { st with heap := (id, e) :: st.heap }

/-- `removeTransaction` / `Map.delete`: drop `id` from the registry key
list.  The heap object survives (live references keep it reachable). -/
def removeReg (st : SysState) (id : String) : SysState :=
  { st with registry := st.registry.filter (fun k => k ≠ id) }

/-- `hasTransaction`: membership in the registry. -/
def hasTx (st : SysState) (id : String) : Bool := st.registry.contains id

/-- `safelyReleaseClient` from `src/lib/utils.ts`: always counts as a
release call; the pool accepts the client only the first time (a second
`client.release()` throws, and the helper swallows the error). -/
def safelyReleaseClient (st : SysState) (c : String) : SysState :=
  { st with
    releaseCalls := st.releaseCalls ++ [c],
    poolReleased :=
      if st.poolReleased.contains c then st.poolReleased
      else st.poolReleased ++ [c] }

/-- Record that query `q` was issued on client `c`. -/
def logQ (st : SysState) (c : String) (q : List Char) : SysState :=
  { st with queryLog := st.queryLog ++ [(c, q)] }

/-- Record an error written to the console. -/
def logErr (st : SysState) (m : String) : SysState :=
  { st with errorLog := st.errorLog ++ [m] }

/-- Record `pool.connect()` returning client `c`. -/
def connectC (st : SysState) (c : String) : SysState :=
  { st with connects := st.connects ++ [c] }

/-- `addTransaction` from `src/lib/transaction-manager.ts`: store a fresh
entry with the current time, the first 100 characters of the statement,
state `active`, and `released = false`; the id is appended to the map in
insertion order. -/
def addTransaction (st : SysState) (id : String) (sql : List Char) (now : Nat) : SysState :=
  { st with
    heap := (id, ⟨now, sql.take 100, TxState.active, false⟩) :: st.heap,
    registry := st.registry ++ [id] }

/-- The shared finalization step used by every resolution path after its
database round trip: set the captured object's `released` flag, call
`safelyReleaseClient` on its client, and delete the id from the registry —
all within one atomic block (no suspension point separates them).  The
`none` branch completes the function on ids that were never created; no
execution reaches it (every task is spawned for an id present in the heap,
and the heap never shrinks). -/
def finalizeTx (st : SysState) (id : String) : SysState :=
  match lookupTx st.heap id with
  | some e => removeReg (safelyReleaseClient (setTx st id { e with released := true }) id) id
  | none => removeReg st id

/-- Outcomes of `handleExecuteCommit` / `handleExecuteRollback`. -/
inductive TxResult
  | noId
  | notFound
  | alreadyReleased
  | committed
  | commitFailed
  | rolledBack
  | rollbackFailed
deriving DecidableEq, Repr

/-- First atomic block of `handleExecuteCommit` (everything up to the
`await client.query("COMMIT")` suspension point): reject a missing id,
reject an id absent from the registry with `TransactionNotFound`, reject an
already-released entry with `AlreadyReleased` while deleting the stale
entry; otherwise issue `COMMIT` on the held client and suspend
(`none` result = proceed to the continuation). -/
def commitStartBlock (st : SysState) (id : String) : SysState × Option TxResult :=
  if id = "" then (st, some TxResult.noId)
  else if ¬ hasTx st id then (st, some TxResult.notFound)
  else
    match lookupTx st.heap id with
    | none => (st, some TxResult.notFound)
    | some e =>
      if e.released then (removeReg st id, some TxResult.alreadyReleased)
      else (logQ st id "COMMIT".data, none)

/-- Continuation of `handleExecuteCommit` after the `COMMIT` round trip.
On success the code sets `released`, releases, and removes, with no further
check of the flag.  On failure it first issues a best-effort `ROLLBACK`
(a further suspension point; its own error is only logged) and then performs
the same unconditional finalization. -/
def commitAfterBlock (st : SysState) (id : String) (commitOk : Bool) :
    SysState × Option (String × Bool) :=
  if commitOk then (finalizeTx st id, none)
  else (logQ st id "ROLLBACK".data, some (id, true))

/-- Final block of the failed-commit path, after the best-effort `ROLLBACK`
round trip: log the rollback error if any, then finalize unconditionally. -/
def commitFailFinishBlock (st : SysState) (id : String) (rollbackOk : Bool) : SysState :=
  if rollbackOk then finalizeTx st id
  else finalizeTx (logErr st "Error during rollback") id

/-- First atomic block of `handleExecuteRollback` (identical checks to the
commit path), issuing `ROLLBACK` before suspending. -/
def rollbackStartBlock (st : SysState) (id : String) : SysState × Option TxResult :=
  if id = "" then (st, some TxResult.noId)
  else if ¬ hasTx st id then (st, some TxResult.notFound)
  else
    match lookupTx st.heap id with
    | none => (st, some TxResult.notFound)
    | some e =>
      if e.released then (removeReg st id, some TxResult.alreadyReleased)
      else (logQ st id "ROLLBACK".data, none)

/-- Continuation of `handleExecuteRollback` after the `ROLLBACK` round
trip: success and failure branches perform the same unconditional
finalization (failed rollbacks must not leak the connection). -/
def rollbackAfterBlock (st : SysState) (id : String) (rollbackOk : Bool) : SysState :=
  if rollbackOk then finalizeTx st id
  else finalizeTx (logErr st "Error rolling back transaction") id

/-- Sequential (uninterleaved) run of `handleExecuteCommit`: the two atomic
blocks composed back to back, with oracles for the outcomes of the `COMMIT`
and of the best-effort `ROLLBACK` on the failure path. -/
def handleExecuteCommit (st : SysState) (id : String) (commitOk rollbackOk : Bool) :
    SysState × TxResult :=
  match commitStartBlock st id with
  | (st1, some r) => (st1, r)
  | (st1, none) =>
    if commitOk then (finalizeTx st1 id, TxResult.committed)
    else (commitFailFinishBlock (logQ st1 id "ROLLBACK".data) id rollbackOk,
          TxResult.commitFailed)

/-- Sequential (uninterleaved) run of `handleExecuteRollback`. -/
def handleExecuteRollback (st : SysState) (id : String) (rollbackOk : Bool) :
    SysState × TxResult :=
  match rollbackStartBlock st id with
  | (st1, some r) => (st1, r)
  | (st1, none) =>
    (rollbackAfterBlock st1 id rollbackOk,
     if rollbackOk then TxResult.rolledBack else TxResult.rollbackFailed)

/-- Outcomes of `handleExecuteQuery`. -/
inductive QueryResult
  | noSql
  | notReadOnly
  | ok
  | queryFailed
deriving DecidableEq, Repr

/-- `handleExecuteQuery`: `pool.connect()` happens first; the missing-SQL
and classifier rejections then release explicitly and return, and the
scoped `finally` releases again on those paths (the duplicate call is
absorbed by `safelyReleaseClient`).  Otherwise run
`BEGIN TRANSACTION READ ONLY`, the statement, and `COMMIT`, each governed by
an outcome oracle; any failure propagates out through the `finally`, which
releases — no `ROLLBACK` is ever issued on this path. -/
def handleExecuteQuery (st : SysState) (sql : List Char) (client : String)
    (beginOk execOk commitOk : Bool) : SysState × QueryResult :=
  let st := connectC st client
  if sql.isEmpty then
    (safelyReleaseClient (safelyReleaseClient st client) client, QueryResult.noSql)
  else if ¬ isReadOnlyQuery sql then
    (safelyReleaseClient (safelyReleaseClient st client) client, QueryResult.notReadOnly)
  else
    let st := logQ st client "BEGIN TRANSACTION READ ONLY".data
    if ¬ beginOk then (safelyReleaseClient st client, QueryResult.queryFailed)
    else
      let st := logQ st client sql
      if ¬ execOk then (safelyReleaseClient st client, QueryResult.queryFailed)
      else
        let st := logQ st client "COMMIT".data
        if ¬ commitOk then (safelyReleaseClient st client, QueryResult.queryFailed)
        else (safelyReleaseClient st client, QueryResult.ok)

/-- Outcomes of `handleExecuteDML`.  `thrown` stands for an error rethrown
out of the handler (failed `BEGIN`, or a failed cleanup `ROLLBACK` whose
error replaces the statement error); the tool wrapper turns it into a plain
message that does not carry the SQL. -/
inductive DmlResult
  | noSql
  | thrown
  | pending (id : String)
  | statementFailed (sql : List Char)
deriving DecidableEq, Repr

/-- Sequential run of `handleExecuteDML`: connect, reject empty SQL (with
release), `BEGIN`, execute.  On success register the transaction and keep
the client checked out.  On execution failure issue `ROLLBACK` then release
and report `StatementFailed` carrying the SQL — unless the `ROLLBACK`
itself fails, in which case the outer catch releases and rethrows the
rollback error. -/
def handleExecuteDML (st : SysState) (sql : List Char) (freshId : String) (now : Nat)
    (beginOk execOk rollbackOk : Bool) : SysState × DmlResult :=
  let st := connectC st freshId
  if sql.isEmpty then (safelyReleaseClient st freshId, DmlResult.noSql)
  else
    let st := logQ st freshId "BEGIN".data
    if ¬ beginOk then (safelyReleaseClient st freshId, DmlResult.thrown)
    else
      let st := logQ st freshId sql
      if execOk then (addTransaction st freshId sql now, DmlResult.pending freshId)
      else
        let st := logQ st freshId "ROLLBACK".data
        if rollbackOk then (safelyReleaseClient st freshId, DmlResult.statementFailed sql)
        else (safelyReleaseClient st freshId, DmlResult.thrown)

/-- Outcome of the `execute_dml_ddl_dcl_tcl` tool wrapper. -/
inductive DmlToolResult
  | tooMany
  | handled (r : DmlResult)
deriving DecidableEq, Repr

/-- The `execute_dml_ddl_dcl_tcl` tool handler: compare
`transactionManager.transactionCount` against the configured
`maxConcurrentTransactions` before calling `handleExecuteDML`; at or above
the ceiling the request fails with no state change at all (in particular no
`pool.connect()`). -/
def executeDmlTool (st : SysState) (maxConcurrent : Nat) (sql : List Char)
    (freshId : String) (now : Nat) (beginOk execOk rollbackOk : Bool) :
    SysState × DmlToolResult :=
  if maxConcurrent ≤ st.registry.length then (st, DmlToolResult.tooMany)
  else
    ((handleExecuteDML st sql freshId now beginOk execOk rollbackOk).1,
     DmlToolResult.handled (handleExecuteDML st sql freshId now beginOk execOk rollbackOk).2)

/-- Pending continuations of suspended tasks.  `commitAfter` /
`rollbackAfter` resume the explicit handlers after their first round trip;
`commitFailFinish` resumes the failed-commit path after its best-effort
`ROLLBACK`; `monitorCont` is the async cleanup spawned by the sweep for one
stuck transaction; `cleanupAfter id rest` resumes the shutdown drain after
rolling back `id`, with `rest` the remainder of the snapshot. -/
inductive PTask
  | commitAfter (id : String)
  | commitFailFinish (id : String)
  | rollbackAfter (id : String)
  | monitorCont (id : String)
  | cleanupAfter (id : String) (rest : List String)
deriving DecidableEq, Repr

/-- One pass of the `checkStuckTransactions` loop body over a list of
registry keys: skip released entries; when `now - startTime` exceeds the
timeout and the state is still `active`, flip the state to `terminating`,
start the async rollback (the `ROLLBACK` is issued synchronously, before the
first suspension inside the spawned function), and record the spawned
continuation. -/
def sweepGo (now timeout : Nat) : SysState → List String → SysState × List PTask
  | st, [] => (st, [])
  | st, id :: rest =>
    match lookupTx st.heap id with
    | none => sweepGo now timeout st rest
    | some e =>
      if e.released then sweepGo now timeout st rest
      else if timeout < now - e.startTime ∧ e.state = TxState.active then
        let st' := logQ (setTx st id { e with state := TxState.terminating }) id "ROLLBACK".data
        ((sweepGo now timeout st' rest).1, PTask.monitorCont id :: (sweepGo now timeout st' rest).2)
      else sweepGo now timeout st rest

/-- `checkStuckTransactions` from `src/lib/transaction-manager.ts`: one
synchronous monitor sweep over the registry at wall-clock time `now`. -/
def checkStuckTransactions (st : SysState) (now timeout : Nat) : SysState × List PTask :=
  sweepGo now timeout st st.registry

/-- The `finally` block of the monitor's spawned rollback, reached whether
or not the `ROLLBACK` succeeded: release only if the entry is still not
`released` (flipping the flag in the same step), then remove the entry
unconditionally. -/
def monitorContBlock (st : SysState) (id : String) : SysState :=
  match lookupTx st.heap id with
  | none => removeReg st id
  | some e =>
    if e.released then removeReg st id
    else finalizeTx st id

/-- The loop of `cleanupTransactions` over the snapshot of registry
entries, run until it suspends on a `ROLLBACK` round trip or finishes:
already-released entries are deleted and skipped synchronously; the first
non-released entry gets `ROLLBACK` issued and the loop suspends; when the
snapshot is exhausted, `activeTransactions.clear()` empties the registry. -/
def cleanupLoop : SysState → List String → SysState × Option PTask
  | st, [] => ({ st with registry := [] }, none)
  | st, id :: rest =>
    match lookupTx st.heap id with
    | none => cleanupLoop st rest
    | some e =>
      if e.released then cleanupLoop (removeReg st id) rest
      else (logQ st id "ROLLBACK".data, some (PTask.cleanupAfter id rest))

/-- Resumption of the shutdown drain after the `ROLLBACK` round trip on
`id`: on success mark released, release, remove; on failure log the error
and do exactly the same (the failure must not leak the connection nor stop
the drain); then continue with the rest of the snapshot. -/
def cleanupAfterBlock (st : SysState) (id : String) (rest : List String)
    (rollbackOk : Bool) : SysState × Option PTask :=
  if rollbackOk then cleanupLoop (finalizeTx st id) rest
  else cleanupLoop (finalizeTx (logErr st "Error rolling back transaction") id) rest

/-- Sequential (uninterleaved) run of `cleanupTransactions` over snapshot
`ids`, with `f id` telling whether the `ROLLBACK` issued for `id`
succeeds. -/
def cleanupTransactions (st : SysState) (ids : List String) (f : String → Bool) : SysState :=
  match ids with
  | [] => { st with registry := [] }
  | id :: rest =>
    match lookupTx st.heap id with
    | none => cleanupTransactions st rest f
    | some e =>
      if e.released then cleanupTransactions (removeReg st id) rest f
      else
        let st1 := logQ st id "ROLLBACK".data
        if f id then cleanupTransactions (finalizeTx st1 id) rest f
        else cleanupTransactions (finalizeTx (logErr st1 "Error rolling back transaction") id) rest f

/-- A configuration of the cooperative scheduler: the shared state plus the
multiset of suspended continuations. -/
structure Config where
  st : SysState
  tasks : List PTask
deriving DecidableEq, Repr

def initConfig : Config := ⟨initState, []⟩

/-- Run one pending continuation.  The Boolean oracle gives the outcome of
the round trip the task was suspended on (ignored where the code treats
success and failure identically). -/
def runTaskBlock (st : SysState) (t : PTask) (ok : Bool) : SysState × List PTask :=
  match t with
  | PTask.commitAfter id =>
    ((commitAfterBlock st id ok).1,
     match (commitAfterBlock st id ok).2 with
     | none => []
     | some (i, _) => [PTask.commitFailFinish i])
  | PTask.commitFailFinish id => (commitFailFinishBlock st id ok, [])
  | PTask.rollbackAfter id => (rollbackAfterBlock st id ok, [])
  | PTask.monitorCont id => (monitorContBlock st id, [])
  | PTask.cleanupAfter id rest =>
    ((cleanupAfterBlock st id rest ok).1, (cleanupAfterBlock st id rest ok).2.toList)

/-- Scheduler choices: arrival of a successful write-execute registration
(with a fresh id), arrival of an explicit commit or rollback request, a
monitor sweep firing at time `now`, the shutdown drain starting, or the
resumption of the `i`-th suspended continuation with round-trip outcome
`ok`. -/
inductive Choice
  | newTx (id : String) (sql : List Char) (now : Nat)
  | commitReq (id : String)
  | rollbackReq (id : String)
  | sweep (now : Nat)
  | cleanupReq
  | runTask (i : Nat) (ok : Bool)
deriving Repr

/-- One step of the interleaved system. -/
def stepC (timeout : Nat) (cfg : Config) : Choice → Config
  | Choice.newTx id sql now =>
    match lookupTx cfg.st.heap id with
    | none => { cfg with st := addTransaction cfg.st id sql now }
    | some _ => cfg
  | Choice.commitReq id =>
    { st := (commitStartBlock cfg.st id).1,
      tasks := cfg.tasks ++
        (match (commitStartBlock cfg.st id).2 with
         | some _ => []
         | none => [PTask.commitAfter id]) }
  | Choice.rollbackReq id =>
    { st := (rollbackStartBlock cfg.st id).1,
      tasks := cfg.tasks ++
        (match (rollbackStartBlock cfg.st id).2 with
         | some _ => []
         | none => [PTask.rollbackAfter id]) }
  | Choice.sweep now =>
    { st := (checkStuckTransactions cfg.st now timeout).1,
      tasks := cfg.tasks ++ (checkStuckTransactions cfg.st now timeout).2 }
  | Choice.cleanupReq =>
    { st := (cleanupLoop cfg.st cfg.st.registry).1,
      tasks := cfg.tasks ++ (cleanupLoop cfg.st cfg.st.registry).2.toList }
  | Choice.runTask i ok =>
    match cfg.tasks.get? i with
    | none => cfg
    | some t =>
      { st := (runTaskBlock cfg.st t ok).1,
        tasks := cfg.tasks.eraseIdx i ++ (runTaskBlock cfg.st t ok).2 }

/-- The configuration reached from the empty initial configuration by a
given sequence of scheduler choices. -/
def reach (timeout : Nat) (cs : List Choice) : Config :=
  cs.foldl (stepC timeout) initConfig

/-- The read-only policy exactly as the specification words it: the
trimmed, case-normalized statement begins with `SELECT`, `WITH`, or
`EXPLAIN`, or begins with `SHOW` and does not contain `CREATE` anywhere. -/
def readOnlyPolicy (sql : List Char) : Prop :=
  "SELECT".data.isPrefixOf (upChars (trimChars sql)) = true ∨
  "WITH".data.isPrefixOf (upChars (trimChars sql)) = true ∨
  "EXPLAIN".data.isPrefixOf (upChars (trimChars sql)) = true ∨
  ("SHOW".data.isPrefixOf (upChars (trimChars sql)) = true ∧
   containsList "CREATE".data (upChars (trimChars sql)) = false)

/-- A single successful write-execute registration. -/
def run1 : List Choice := [Choice.newTx "t1" "UPDATE t".data 0]

/-- Registration followed by a monitor sweep well past the timeout: the
sweep marks `t1` terminating and spawns its forced-rollback task. -/
def run2 : List Choice := [Choice.newTx "t1" "UPDATE t".data 0, Choice.sweep 100]

/-- The racing interleaving: `t1` is registered; an explicit commit passes
its `released` check and suspends on its `COMMIT` round trip; the monitor
sweep fires past the timeout and spawns a forced rollback; the forced
rollback completes first (releasing the client and removing the entry); the
commit continuation then resumes and releases again, unconditionally. -/
def raceRun : List Choice :=
  [Choice.newTx "t1" "UPDATE t".data 0,
   Choice.commitReq "t1",
   Choice.sweep 100,
   Choice.runTask 1 true,
   Choice.runTask 0 true]

/-- The tracked entry created by `run1` (the statement is 8 characters, so
the stored preview is the whole statement). -/
def e1 : TEntry := ⟨0, "UPDATE t".data, TxState.active, false⟩

/-- The same entry after the monitor sweep of `run2` has marked it
`terminating`. -/
def e2 : TEntry := ⟨0, "UPDATE t".data, TxState.terminating, false⟩

/-- A state holding one live tracked transaction `t1`. -/
def stA : SysState := addTransaction initState "t1" "UPDATE t".data 0

/-- A state holding two live tracked transactions `a` and `b`. -/
def stB : SysState :=
  addTransaction (addTransaction initState "a" "DELETE 1".data 0) "b" "DELETE 2".data 0

/-- A rollback oracle for the shutdown drain under which the rollback of
`a` fails and the rollback of `b` succeeds. -/
def drainF : String → Bool := fun id => id == "b"

/-- The state invariant maintained by every atomic block of the system:
`regFlag` — no registry entry has its `released` flag set (claim C3);
`relFlag` — any client that has seen a release call belongs to a heap entry
whose `released` flag is set (so a `released = false` entry has never had
its client released);
`regWF` — registry keys have heap objects;
`poolOnce` — the pool has taken each client back at most once;
`regNodup` — the registry key list has no duplicates. -/
structure Inv (st : SysState) : Prop where
  regFlag : ∀ id e, id ∈ st.registry → lookupTx st.heap id = some e → e.released = false
  relFlag : ∀ id, id ∈ st.releaseCalls → ∃ e, lookupTx st.heap id = some e ∧ e.released = true
  regWF : ∀ id, id ∈ st.registry → ∃ e, lookupTx st.heap id = some e
  poolOnce : st.poolReleased.Nodup
  regNodup : st.registry.Nodup

theorem lookupTx_cons (k : String) (e : TEntry) (h : List (String × TEntry)) (id : String) :
    lookupTx ((k, e) :: h) id = if k = id then some e else lookupTx h id := rfl

theorem inv_initState : Inv initState := by
  constructor <;> simp [initState]

theorem mem_removeReg_registry {st : SysState} {id x : String} :
    x ∈ (removeReg st id).registry ↔ x ∈ st.registry ∧ x ≠ id := by
  simp [removeReg, List.mem_filter]

theorem not_mem_removeReg_self (st : SysState) (id : String) :
    id ∉ (removeReg st id).registry := by
  simp [removeReg, List.mem_filter]

theorem inv_removeReg {st : SysState} (h : Inv st) (id : String) : Inv (removeReg st id) := by
  refine ⟨?_, ?_, ?_, ?_, ?_⟩
  · intro x e hx he
    exact h.regFlag x e (mem_removeReg_registry.mp hx).1 he
  · exact h.relFlag
  · intro x hx
    exact h.regWF x (mem_removeReg_registry.mp hx).1
  · exact h.poolOnce
  · exact h.regNodup.filter _

theorem inv_logQ {st : SysState} (h : Inv st) (c : String) (q : List Char) :
    Inv (logQ st c q) := by
  refine ⟨h.regFlag, ?_, h.regWF, h.poolOnce, h.regNodup⟩
  intro x hx
  exact h.relFlag x (by simpa [logQ] using hx)

theorem inv_logErr {st : SysState} (h : Inv st) (m : String) : Inv (logErr st m) :=
  ⟨h.regFlag, h.relFlag, h.regWF, h.poolOnce, h.regNodup⟩

theorem inv_connectC {st : SysState} (h : Inv st) (c : String) : Inv (connectC st c) :=
  ⟨h.regFlag, h.relFlag, h.regWF, h.poolOnce, h.regNodup⟩

/-- `finalizeTx` preserves the invariant: the entry leaves the registry in
the same atomic step that sets its `released` flag and releases its
client. -/
theorem inv_finalizeTx {st : SysState} (h : Inv st) (id : String) : Inv (finalizeTx st id) := by
  unfold finalizeTx
  cases hl : lookupTx st.heap id with
  | none => exact inv_removeReg h id
  | some e =>
    refine ⟨?_, ?_, ?_, ?_, ?_⟩
    · intro x ex hx hex
      have hx' : x ∈ st.registry ∧ x ≠ id := by
        simpa [removeReg, safelyReleaseClient, setTx, List.mem_filter] using hx
      have : lookupTx st.heap x = some ex := by
        simpa [removeReg, safelyReleaseClient, setTx, lookupTx_cons,
               if_neg (Ne.symm hx'.2)] using hex
      exact h.regFlag x ex hx'.1 this
    · intro x hx
      have hx' : x ∈ st.releaseCalls ∨ x = id := by
        simpa [removeReg, safelyReleaseClient, setTx] using hx
      rcases hx' with hx' | rfl
      · rcases h.relFlag x hx' with ⟨ex, hex, hrel⟩
        by_cases hxid : x = id
        · subst hxid
          refine ⟨{ e with released := true }, ?_, rfl⟩
          simp [removeReg, safelyReleaseClient, setTx, lookupTx_cons]
        · refine ⟨ex, ?_, hrel⟩
          simp [removeReg, safelyReleaseClient, setTx, lookupTx_cons, if_neg (Ne.symm hxid), hex]
      · refine ⟨{ e with released := true }, ?_, rfl⟩
        simp [removeReg, safelyReleaseClient, setTx, lookupTx_cons]
    · intro x hx
      have hx' : x ∈ st.registry ∧ x ≠ id := by
        simpa [removeReg, safelyReleaseClient, setTx, List.mem_filter] using hx
      rcases h.regWF x hx'.1 with ⟨ex, hex⟩
      refine ⟨ex, ?_⟩
      simp [removeReg, safelyReleaseClient, setTx, lookupTx_cons, if_neg (Ne.symm hx'.2), hex]
    · unfold removeReg safelyReleaseClient setTx
      dsimp only
      split
      · exact h.poolOnce
      · next hc =>
        have : id ∉ st.poolReleased := by simpa using hc
        simp [List.nodup_append, h.poolOnce, this]
    · exact (h.regNodup.filter _)

/-- Registering a fresh transaction preserves the invariant. -/
theorem inv_addTransaction {st : SysState} (h : Inv st) {id : String}
    (hfresh : lookupTx st.heap id = none) (sql : List Char) (now : Nat) :
    Inv (addTransaction st id sql now) := by
  have hnotreg : id ∉ st.registry := by
    intro hmem
    rcases h.regWF id hmem with ⟨e, he⟩
    rw [hfresh] at he
    exact Option.noConfusion he
  refine ⟨?_, ?_, ?_, h.poolOnce, ?_⟩
  · intro x e hx he
    by_cases hxid : x = id
    · subst hxid
      have : some (⟨now, sql.take 100, TxState.active, false⟩ : TEntry) = some e := by
        simpa [addTransaction, lookupTx_cons] using he
      rw [← Option.some_injective _ this]
    · have hx' : x ∈ st.registry := by
        rcases (by simpa [addTransaction] using hx : x ∈ st.registry ∨ x = id) with hx' | hx'
        · exact hx'
        · exact absurd hx' hxid
      have he' : lookupTx st.heap x = some e := by
        simpa [addTransaction, lookupTx_cons, if_neg (Ne.symm hxid)] using he
      exact h.regFlag x e hx' he'
  · intro x hx
    have hx' : x ∈ st.releaseCalls := by simpa [addTransaction] using hx
    rcases h.relFlag x hx' with ⟨ex, hex, hrel⟩
    have hxid : x ≠ id := by
      intro hxe
      subst hxe
      rw [hfresh] at hex
      exact Option.noConfusion hex
    refine ⟨ex, ?_, hrel⟩
    simp [addTransaction, lookupTx_cons, if_neg (Ne.symm hxid), hex]
  · intro x hx
    by_cases hxid : x = id
    · subst hxid
      exact ⟨⟨now, sql.take 100, TxState.active, false⟩, by simp [addTransaction, lookupTx_cons]⟩
    · have hx' : x ∈ st.registry := by
        rcases (by simpa [addTransaction] using hx : x ∈ st.registry ∨ x = id) with hx' | hx'
        · exact hx'
        · exact absurd hx' hxid
      rcases h.regWF x hx' with ⟨ex, hex⟩
      exact ⟨ex, by simp [addTransaction, lookupTx_cons, if_neg (Ne.symm hxid), hex]⟩
  · simp [addTransaction, List.nodup_append, h.regNodup, hnotreg]

/-- The monitor sweep never touches the registry key list, the release
logs, or any entry's `released` flag: it only flips `state` fields and
issues `ROLLBACK` queries. -/
theorem sweepGo_effects (now timeout : Nat) :
    ∀ (ids : List String) (st : SysState),
      (sweepGo now timeout st ids).1.registry = st.registry ∧
      (sweepGo now timeout st ids).1.releaseCalls = st.releaseCalls ∧
      (sweepGo now timeout st ids).1.poolReleased = st.poolReleased ∧
      ∀ x, (lookupTx (sweepGo now timeout st ids).1.heap x).map (fun e => e.released)
            = (lookupTx st.heap x).map (fun e => e.released) := by
  intro ids
  induction ids with
  | nil => intro st; exact ⟨rfl, rfl, rfl, fun _ => rfl⟩
  | cons id rest ih =>
    intro st
    unfold sweepGo
    cases hl : lookupTx st.heap id with
    | none => exact ih st
    | some e =>
      by_cases hrel : e.released = true
      · simp only [hrel, if_true]
        exact ih st
      · dsimp only
        rw [if_neg hrel]
        by_cases hcond : timeout < now - e.startTime ∧ e.state = TxState.active
        · rw [if_pos hcond]
          rcases ih (logQ (setTx st id { e with state := TxState.terminating }) id "ROLLBACK".data)
            with ⟨h1, h2, h3, h4⟩
          refine ⟨?_, ?_, ?_, ?_⟩
          · simpa [logQ, setTx] using h1
          · simpa [logQ, setTx] using h2
          · simpa [logQ, setTx] using h3
          · intro x
            have h4x := h4 x
            by_cases hx : id = x
            · subst hx
              simpa [logQ, setTx, lookupTx_cons, hl] using h4x
            · simpa [logQ, setTx, lookupTx_cons, if_neg hx] using h4x
        · rw [if_neg hcond]
          exact ih st

theorem inv_checkStuckTransactions {st : SysState} (h : Inv st) (now timeout : Nat) :
    Inv (checkStuckTransactions st now timeout).1 := by
  rcases sweepGo_effects now timeout st.registry st with ⟨h1, h2, h3, h4⟩
  unfold checkStuckTransactions
  refine ⟨?_, ?_, ?_, ?_, ?_⟩
  · intro x e hx he
    have hx' : x ∈ st.registry := by rw [← h1]; exact hx
    have hmap := h4 x
    rw [he] at hmap
    cases hl : lookupTx st.heap x with
    | none =>
      rw [hl] at hmap
      simp at hmap
    | some e0 =>
      rw [hl] at hmap
      simp only [Option.map_some'] at hmap
      rw [Option.some_injective _ hmap]
      exact h.regFlag x e0 hx' hl
  · intro x hx
    have hx' : x ∈ st.releaseCalls := by rw [← h2]; exact hx
    rcases h.relFlag x hx' with ⟨e0, he0, hrel⟩
    have hmap := h4 x
    rw [he0] at hmap
    cases hl : lookupTx (sweepGo now timeout st st.registry).1.heap x with
    | none =>
      rw [hl] at hmap
      simp at hmap
    | some e1 =>
      rw [hl] at hmap
      simp only [Option.map_some'] at hmap
      exact ⟨e1, rfl, by rw [Option.some_injective _ hmap, hrel]⟩
  · intro x hx
    have hx' : x ∈ st.registry := by rw [← h1]; exact hx
    rcases h.regWF x hx' with ⟨e0, he0⟩
    have hmap := h4 x
    rw [he0] at hmap
    cases hl : lookupTx (sweepGo now timeout st st.registry).1.heap x with
    | none =>
      rw [hl] at hmap
      simp at hmap
    | some e1 => exact ⟨e1, rfl⟩
  · rw [h3]; exact h.poolOnce
  · rw [h1]; exact h.regNodup

theorem inv_cleanupLoop : ∀ (ids : List String) (st : SysState), Inv st →
    Inv (cleanupLoop st ids).1 := by
  intro ids
  induction ids with
  | nil =>
    intro st h
    refine ⟨?_, h.relFlag, ?_, h.poolOnce, ?_⟩ <;> simp [cleanupLoop]
  | cons id rest ih =>
    intro st h
    unfold cleanupLoop
    cases hl : lookupTx st.heap id with
    | none => exact ih st h
    | some e =>
      by_cases hrel : e.released = true
      · simp only [hrel, if_true]
        exact ih _ (inv_removeReg h id)
      · have hrel' : e.released = false := by
          cases hb : e.released
          · rfl
          · exact absurd hb hrel
        simp only [hrel', Bool.false_eq_true, if_false]
        exact inv_logQ h id "ROLLBACK".data

theorem inv_cleanupAfterBlock {st : SysState} (h : Inv st) (id : String)
    (rest : List String) (ok : Bool) : Inv (cleanupAfterBlock st id rest ok).1 := by
  unfold cleanupAfterBlock
  cases ok
  · simp only [Bool.false_eq_true, if_false]
    exact inv_cleanupLoop rest _ (inv_finalizeTx (inv_logErr h _) id)
  · simp only [if_true]
    exact inv_cleanupLoop rest _ (inv_finalizeTx h id)

theorem inv_commitStartBlock {st : SysState} (h : Inv st) (id : String) :
    Inv (commitStartBlock st id).1 := by
  unfold commitStartBlock
  split
  · exact h
  · split
    · exact h
    · cases hl : lookupTx st.heap id with
      | none => exact h
      | some e =>
        dsimp only
        split
        · exact inv_removeReg h id
        · exact inv_logQ h id "COMMIT".data

theorem inv_rollbackStartBlock {st : SysState} (h : Inv st) (id : String) :
    Inv (rollbackStartBlock st id).1 := by
  unfold rollbackStartBlock
  split
  · exact h
  · split
    · exact h
    · cases hl : lookupTx st.heap id with
      | none => exact h
      | some e =>
        dsimp only
        split
        · exact inv_removeReg h id
        · exact inv_logQ h id "ROLLBACK".data

theorem inv_monitorContBlock {st : SysState} (h : Inv st) (id : String) :
    Inv (monitorContBlock st id) := by
  unfold monitorContBlock
  cases lookupTx st.heap id with
  | none => exact inv_removeReg h id
  | some e =>
    dsimp only
    split
    · exact inv_removeReg h id
    · exact inv_finalizeTx h id

theorem inv_runTaskBlock {st : SysState} (h : Inv st) (t : PTask) (ok : Bool) :
    Inv (runTaskBlock st t ok).1 := by
  cases t with
  | commitAfter id =>
    unfold runTaskBlock commitAfterBlock
    cases ok
    · simp only [Bool.false_eq_true, if_false]
      exact inv_logQ h id "ROLLBACK".data
    · simp only [if_true]
      exact inv_finalizeTx h id
  | commitFailFinish id =>
    unfold runTaskBlock commitFailFinishBlock
    cases ok
    · simp only [Bool.false_eq_true, if_false]
      exact inv_finalizeTx (inv_logErr h _) id
    · simp only [if_true]
      exact inv_finalizeTx h id
  | rollbackAfter id =>
    unfold runTaskBlock rollbackAfterBlock
    cases ok
    · simp only [Bool.false_eq_true, if_false]
      exact inv_finalizeTx (inv_logErr h _) id
    · simp only [if_true]
      exact inv_finalizeTx h id
  | monitorCont id =>
    unfold runTaskBlock
    exact inv_monitorContBlock h id
  | cleanupAfter id rest =>
    exact inv_cleanupAfterBlock h id rest ok

theorem inv_stepC {cfg : Config} (h : Inv cfg.st) (timeout : Nat) (c : Choice) :
    Inv (stepC timeout cfg c).st := by
  cases c with
  | newTx id sql now =>
    have hstep : stepC timeout cfg (Choice.newTx id sql now) =
        (match lookupTx cfg.st.heap id with
         | none => { cfg with st := addTransaction cfg.st id sql now }
         | some _ => cfg) := rfl
    rw [hstep]
    cases hl : lookupTx cfg.st.heap id with
    | none => exact inv_addTransaction h hl sql now
    | some e => exact h
  | commitReq id => exact inv_commitStartBlock h id
  | rollbackReq id => exact inv_rollbackStartBlock h id
  | sweep now => exact inv_checkStuckTransactions h now timeout
  | cleanupReq => exact inv_cleanupLoop cfg.st.registry cfg.st h
  | runTask i ok =>
    have hstep : stepC timeout cfg (Choice.runTask i ok) =
        (match cfg.tasks.get? i with
         | none => cfg
         | some t =>
           { st := (runTaskBlock cfg.st t ok).1,
             tasks := cfg.tasks.eraseIdx i ++ (runTaskBlock cfg.st t ok).2 }) := rfl
    rw [hstep]
    cases cfg.tasks.get? i with
    | none => exact h
    | some t => exact inv_runTaskBlock h t ok

theorem inv_foldl (timeout : Nat) :
    ∀ (cs : List Choice) (cfg : Config), Inv cfg.st →
      Inv (cs.foldl (stepC timeout) cfg).st := by
  intro cs
  induction cs with
  | nil => intro cfg h; exact h
  | cons c cs ih =>
    intro cfg h
    exact ih (stepC timeout cfg c) (inv_stepC h timeout c)

/-- Every configuration reachable under any interleaving satisfies the
system invariant. -/
theorem inv_reach (timeout : Nat) (cs : List Choice) : Inv (reach timeout cs).st :=
  inv_foldl timeout cs initConfig inv_initState

theorem sweepGo_queryLog_mono (now timeout : Nat) :
    ∀ (ids : List String) (st : SysState) (x : String × List Char),
      x ∈ st.queryLog → x ∈ (sweepGo now timeout st ids).1.queryLog := by
  intro ids
  induction ids with
  | nil => intro st x hx; exact hx
  | cons id rest ih =>
    intro st x hx
    unfold sweepGo
    cases hl : lookupTx st.heap id with
    | none => exact ih st x hx
    | some e =>
      by_cases hrel : e.released = true
      · simp only [hrel, if_true]
        exact ih st x hx
      · dsimp only
        rw [if_neg hrel]
        by_cases hcond : timeout < now - e.startTime ∧ e.state = TxState.active
        · rw [if_pos hcond]
          exact ih _ x (by simp [logQ, setTx, hx])
        · rw [if_neg hcond]
          exact ih st x hx

theorem sweepGo_lookup_not_mem (now timeout : Nat) :
    ∀ (ids : List String) (st : SysState) (id : String), id ∉ ids →
      lookupTx (sweepGo now timeout st ids).1.heap id = lookupTx st.heap id := by
  intro ids
  induction ids with
  | nil => intro st id _; rfl
  | cons id0 rest ih =>
    intro st id hmem
    have hne : id0 ≠ id := fun hx => hmem (by rw [hx]; exact List.mem_cons_self _ _)
    have hrest : id ∉ rest := fun hx => hmem (List.mem_cons_of_mem _ hx)
    unfold sweepGo
    cases hl : lookupTx st.heap id0 with
    | none => exact ih st id hrest
    | some e =>
      by_cases hrel : e.released = true
      · simp only [hrel, if_true]
        exact ih st id hrest
      · dsimp only
        rw [if_neg hrel]
        by_cases hcond : timeout < now - e.startTime ∧ e.state = TxState.active
        · rw [if_pos hcond]
          rw [ih _ id hrest]
          simp [logQ, setTx, lookupTx_cons, hne]
        · rw [if_neg hcond]
          exact ih st id hrest

/-- Per-entry effect of one monitor sweep on a stuck transaction: state
flipped to `terminating`, `ROLLBACK` issued on its client, forced-rollback
continuation spawned. -/
theorem sweepGo_hits (now timeout : Nat) :
    ∀ (ids : List String) (st : SysState) (id : String) (e : TEntry),
      ids.Nodup → id ∈ ids → lookupTx st.heap id = some e →
      e.released = false → timeout < now - e.startTime → e.state = TxState.active →
      lookupTx (sweepGo now timeout st ids).1.heap id =
        some { e with state := TxState.terminating } ∧
      PTask.monitorCont id ∈ (sweepGo now timeout st ids).2 ∧
      (id, "ROLLBACK".data) ∈ (sweepGo now timeout st ids).1.queryLog := by
  intro ids
  induction ids with
  | nil => intro st id e _ hmem; exact absurd hmem (List.not_mem_nil id)
  | cons id0 rest ih =>
    intro st id e hnd hmem hl hrel hage hstate
    have hnd' : rest.Nodup := (List.nodup_cons.mp hnd).2
    by_cases hid : id0 = id
    · subst hid
      have hrest : id0 ∉ rest := (List.nodup_cons.mp hnd).1
      unfold sweepGo
      rw [hl]
      dsimp only
      rw [if_neg (by rw [hrel]; exact Bool.false_ne_true)]
      rw [if_pos ⟨hage, hstate⟩]
      refine ⟨?_, by simp, ?_⟩
      · rw [sweepGo_lookup_not_mem now timeout rest _ id0 hrest]
        simp [logQ, setTx, lookupTx_cons]
      · exact sweepGo_queryLog_mono now timeout rest _ _ (by simp [logQ, setTx])
    · have hmem' : id ∈ rest := by
        cases List.mem_cons.mp hmem with
        | inl hx => exact absurd hx.symm hid
        | inr hx => exact hx
      unfold sweepGo
      cases hl0 : lookupTx st.heap id0 with
      | none => exact ih st id e hnd' hmem' hl hrel hage hstate
      | some e0 =>
        by_cases hrel0 : e0.released = true
        · simp only [hrel0, if_true]
          exact ih st id e hnd' hmem' hl hrel hage hstate
        · dsimp only
          rw [if_neg hrel0]
          by_cases hcond : timeout < now - e0.startTime ∧ e0.state = TxState.active
          · rw [if_pos hcond]
            have hl' : lookupTx (logQ (setTx st id0 { e0 with state := TxState.terminating })
                id0 "ROLLBACK".data).heap id = some e := by
              simp [logQ, setTx, lookupTx_cons, hid, hl]
            rcases ih _ id e hnd' hmem' hl' hrel hage hstate with ⟨ha, hb, hc⟩
            exact ⟨ha, by simp [hb], hc⟩
          · rw [if_neg hcond]
            exact ih st id e hnd' hmem' hl hrel hage hstate

/-- C8.  The statement classifier `isReadOnlyQuery` returns `true` exactly
when the trimmed, case-normalized statement begins with `SELECT`, `WITH`,
or `EXPLAIN`, or begins with `SHOW` and does not contain `CREATE` anywhere.
The embedding is a pure function of the SQL string, so it has no side
effects. -/
theorem isReadOnlyQuery_iff_policy (sql : List Char) :
    isReadOnlyQuery sql = true ↔ readOnlyPolicy sql := by
  simp only [isReadOnlyQuery, readOnlyPolicy, Bool.or_eq_true, Bool.and_eq_true,
    Bool.not_eq_true']
  tauto

/-- C10.  A newly registered tracked transaction is stored under the
supplied identifier with state `active`, `released = false`, `startTime`
equal to the registration time, and a SQL preview that is a prefix of the
submitted statement of at most 100 characters. -/
theorem addTransaction_initial_entry (st : SysState) (id : String) (sql : List Char) (now : Nat) :
    lookupTx (addTransaction st id sql now).heap id =
      some ⟨now, sql.take 100, TxState.active, false⟩ ∧
    id ∈ (addTransaction st id sql now).registry ∧
    (∃ rest, sql.take 100 ++ rest = sql) ∧
    (sql.take 100).length ≤ 100 := by
  refine ⟨?_, ?_, ⟨sql.drop 100, List.take_append_drop 100 sql⟩, ?_⟩
  · simp [addTransaction, lookupTx_cons]
  · simp [addTransaction]
  · exact List.length_take_le 100 sql

/-- C3.  In every configuration reachable under every interleaving of
write-execute registrations, explicit commits and rollbacks, monitor
sweeps, forced-rollback continuations, and the shutdown drain, no entry
still present in the registry has its `released` flag set: every operation
that sets the flag removes the entry within the same atomic block. -/
theorem no_released_entry_in_registry (timeout : Nat) (cs : List Choice) :
    ∀ id e, id ∈ (reach timeout cs).st.registry →
      lookupTx (reach timeout cs).st.heap id = some e → e.released = false :=
  (inv_reach timeout cs).regFlag

theorem no_released_entry_in_registry_witness :
    ("t1" ∈ (reach 10 run1).st.registry) ∧
    lookupTx (reach 10 run1).st.heap "t1" = some e1 ∧
    e1.released = false :=
  ⟨by decide, by decide,
   no_released_entry_in_registry 10 run1 "t1" e1 (by decide) (by decide)⟩

/-- C1 counterexample.  The claim asserts that under every interleaving
the connection is released at most once because every path re-checks the
`released` flag immediately before releasing.  In the `raceRun`
interleaving the explicit commit checks the flag only before its `COMMIT`
round trip; the monitor's forced rollback completes during that round trip
(performing the first release and removing the entry), and the commit
continuation then sets the flag and calls `safelyReleaseClient` again with
no further check: the release call is performed twice on the same
connection.  (The pool itself takes the client back only once — the second
`client.release()` throws and is swallowed.) -/
theorem commit_monitor_race_double_release :
    (reach 10 raceRun).st.releaseCalls = ["t1", "t1"] ∧
    (reach 10 raceRun).st.poolReleased = ["t1"] := by decide

/-- C1 (amended).  During every monitor sweep, every registry entry with
`released = false`, age strictly above the timeout, and state still
`active` is transitioned to `terminating`, has `ROLLBACK` issued on its
client, and gets a forced-rollback continuation spawned; when that
continuation runs while the entry is still unreleased, it checks the
`released` flag immediately before releasing, flips it in the same atomic
step, performs the first release call ever made on that connection, and
removes the entry from the registry.  At the pool level every connection is
returned at most once in every reachable configuration.  The explicit
commit/rollback paths, however, do not re-check the flag after their own
round trip, so they can invoke the release helper a second time (see the
counterexample); the duplicate attempt fails inside `safelyReleaseClient`
and the pool still takes the client back only once. -/
theorem monitor_timeout_forced_rollback (timeout : Nat) (cs : List Choice) :
    (∀ now id e,
       id ∈ (reach timeout cs).st.registry →
       lookupTx (reach timeout cs).st.heap id = some e →
       e.released = false →
       timeout < now - e.startTime →
       e.state = TxState.active →
       lookupTx (stepC timeout (reach timeout cs) (Choice.sweep now)).st.heap id =
         some { e with state := TxState.terminating } ∧
       PTask.monitorCont id ∈ (stepC timeout (reach timeout cs) (Choice.sweep now)).tasks ∧
       (id, "ROLLBACK".data) ∈ (stepC timeout (reach timeout cs) (Choice.sweep now)).st.queryLog) ∧
    (∀ i id e ok,
       (reach timeout cs).tasks.get? i = some (PTask.monitorCont id) →
       lookupTx (reach timeout cs).st.heap id = some e →
       e.released = false →
       lookupTx (stepC timeout (reach timeout cs) (Choice.runTask i ok)).st.heap id =
         some { e with released := true } ∧
       id ∉ (stepC timeout (reach timeout cs) (Choice.runTask i ok)).st.registry ∧
       (stepC timeout (reach timeout cs) (Choice.runTask i ok)).st.releaseCalls =
         (reach timeout cs).st.releaseCalls ++ [id] ∧
       id ∉ (reach timeout cs).st.releaseCalls) ∧
    (reach timeout cs).st.poolReleased.Nodup := by
  refine ⟨?_, ?_, (inv_reach timeout cs).poolOnce⟩
  · intro now id e hreg hl hrel hage hstate
    have hnd : (reach timeout cs).st.registry.Nodup := (inv_reach timeout cs).regNodup
    have hhits := sweepGo_hits now timeout (reach timeout cs).st.registry
      (reach timeout cs).st id e hnd hreg hl hrel hage hstate
    refine ⟨hhits.1, ?_, hhits.2.2⟩
    have : (stepC timeout (reach timeout cs) (Choice.sweep now)).tasks =
        (reach timeout cs).tasks ++ (checkStuckTransactions (reach timeout cs).st now timeout).2 :=
      rfl
    rw [this]
    exact List.mem_append_right _ hhits.2.1
  · intro i id e ok hget hl hrel
    have hstep : stepC timeout (reach timeout cs) (Choice.runTask i ok) =
        { st := (runTaskBlock (reach timeout cs).st (PTask.monitorCont id) ok).1,
          tasks := (reach timeout cs).tasks.eraseIdx i ++
            (runTaskBlock (reach timeout cs).st (PTask.monitorCont id) ok).2 } := by
      show (match (reach timeout cs).tasks.get? i with
            | none => reach timeout cs
            | some t =>
              { st := (runTaskBlock (reach timeout cs).st t ok).1,
                tasks := (reach timeout cs).tasks.eraseIdx i ++
                  (runTaskBlock (reach timeout cs).st t ok).2 }) = _
      rw [hget]
    have hmon : (runTaskBlock (reach timeout cs).st (PTask.monitorCont id) ok).1 =
        finalizeTx (reach timeout cs).st id := by
      show monitorContBlock (reach timeout cs).st id = _
      unfold monitorContBlock
      rw [hl]
      dsimp only
      rw [if_neg (by rw [hrel]; exact Bool.false_ne_true)]
    have hfin : finalizeTx (reach timeout cs).st id =
        removeReg (safelyReleaseClient
          (setTx (reach timeout cs).st id { e with released := true }) id) id := by
      unfold finalizeTx
      rw [hl]
    refine ⟨?_, ?_, ?_, ?_⟩
    · rw [hstep]
      dsimp only
      rw [hmon, hfin]
      simp [removeReg, safelyReleaseClient, setTx, lookupTx_cons]
    · rw [hstep]
      dsimp only
      rw [hmon, hfin]
      simp [removeReg, safelyReleaseClient, setTx, List.mem_filter]
    · rw [hstep]
      dsimp only
      rw [hmon, hfin]
      simp [removeReg, safelyReleaseClient, setTx]
    · intro hmem
      rcases (inv_reach timeout cs).relFlag id hmem with ⟨e', he', hrel'⟩
      rw [hl] at he'
      rw [← Option.some_injective _ he'] at hrel'
      rw [hrel] at hrel'
      exact Bool.false_ne_true hrel'

theorem monitor_timeout_forced_rollback_witness :
    (("t1" ∈ (reach 10 run1).st.registry) ∧
     lookupTx (reach 10 run1).st.heap "t1" = some e1 ∧
     e1.released = false ∧ 10 < 100 - e1.startTime ∧ e1.state = TxState.active ∧
     lookupTx (stepC 10 (reach 10 run1) (Choice.sweep 100)).st.heap "t1" =
       some { e1 with state := TxState.terminating } ∧
     PTask.monitorCont "t1" ∈ (stepC 10 (reach 10 run1) (Choice.sweep 100)).tasks ∧
     ("t1", "ROLLBACK".data) ∈ (stepC 10 (reach 10 run1) (Choice.sweep 100)).st.queryLog) ∧
    ((reach 10 run2).tasks.get? 0 = some (PTask.monitorCont "t1") ∧
     lookupTx (reach 10 run2).st.heap "t1" = some e2 ∧
     e2.released = false ∧
     lookupTx (stepC 10 (reach 10 run2) (Choice.runTask 0 true)).st.heap "t1" =
       some { e2 with released := true } ∧
     "t1" ∉ (stepC 10 (reach 10 run2) (Choice.runTask 0 true)).st.registry ∧
     (stepC 10 (reach 10 run2) (Choice.runTask 0 true)).st.releaseCalls =
       (reach 10 run2).st.releaseCalls ++ ["t1"] ∧
     "t1" ∉ (reach 10 run2).st.releaseCalls) := by
  refine ⟨⟨by decide, by decide, by decide, by decide, by decide, ?_⟩,
          ⟨by decide, by decide, by decide, ?_⟩⟩
  · have h := (monitor_timeout_forced_rollback 10 run1).1 100 "t1" e1
      (by decide) (by decide) (by decide) (by decide) (by decide)
    exact ⟨h.1, h.2.1, h.2.2⟩
  · have h := (monitor_timeout_forced_rollback 10 run2).2.1 0 "t1" e2 true
      (by decide) (by decide) (by decide)
    exact ⟨h.1, h.2.1, h.2.2.1, h.2.2.2⟩

theorem hasTx_finalizeTx (st : SysState) (id : String) : hasTx (finalizeTx st id) id = false := by
  unfold finalizeTx
  cases lookupTx st.heap id <;>
    simp [hasTx, removeReg, safelyReleaseClient, setTx, List.elem_eq_mem, List.mem_filter]

theorem commit_notFound {st : SysState} {id : String} (hne : id ≠ "")
    (h : hasTx st id = false) (cOk rOk : Bool) :
    handleExecuteCommit st id cOk rOk = (st, TxResult.notFound) := by
  simp [handleExecuteCommit, commitStartBlock, hne, h]

theorem rollback_notFound {st : SysState} {id : String} (hne : id ≠ "")
    (h : hasTx st id = false) (rOk : Bool) :
    handleExecuteRollback st id rOk = (st, TxResult.notFound) := by
  simp [handleExecuteRollback, rollbackStartBlock, hne, h]

theorem commitStartBlock_live {st : SysState} {id : String} {e : TEntry} (hne : id ≠ "")
    (hhas : hasTx st id = true) (hl : lookupTx st.heap id = some e)
    (hrel : e.released = false) :
    commitStartBlock st id = (logQ st id "COMMIT".data, none) := by
  simp [commitStartBlock, hne, hhas, hl, hrel]

theorem rollbackStartBlock_live {st : SysState} {id : String} {e : TEntry} (hne : id ≠ "")
    (hhas : hasTx st id = true) (hl : lookupTx st.heap id = some e)
    (hrel : e.released = false) :
    rollbackStartBlock st id = (logQ st id "ROLLBACK".data, none) := by
  simp [rollbackStartBlock, hne, hhas, hl, hrel]

theorem handleExecuteCommit_live {st : SysState} {id : String} {e : TEntry} (hne : id ≠ "")
    (hhas : hasTx st id = true) (hl : lookupTx st.heap id = some e)
    (hrel : e.released = false) (cOk rOk : Bool) :
    handleExecuteCommit st id cOk rOk =
      if cOk then (finalizeTx (logQ st id "COMMIT".data) id, TxResult.committed)
      else (commitFailFinishBlock (logQ (logQ st id "COMMIT".data) id "ROLLBACK".data) id rOk,
            TxResult.commitFailed) := by
  unfold handleExecuteCommit
  rw [commitStartBlock_live hne hhas hl hrel]

theorem handleExecuteRollback_live {st : SysState} {id : String} {e : TEntry} (hne : id ≠ "")
    (hhas : hasTx st id = true) (hl : lookupTx st.heap id = some e)
    (hrel : e.released = false) (rOk : Bool) :
    handleExecuteRollback st id rOk =
      (rollbackAfterBlock (logQ st id "ROLLBACK".data) id rOk,
       if rOk then TxResult.rolledBack else TxResult.rollbackFailed) := by
  unfold handleExecuteRollback
  rw [rollbackStartBlock_live hne hhas hl hrel]

theorem hasTx_commit_live {st : SysState} {id : String} {e : TEntry} (hne : id ≠ "")
    (hhas : hasTx st id = true) (hl : lookupTx st.heap id = some e)
    (hrel : e.released = false) (cOk rOk : Bool) :
    hasTx (handleExecuteCommit st id cOk rOk).1 id = false := by
  rw [handleExecuteCommit_live hne hhas hl hrel]
  cases cOk
  · simp only [Bool.false_eq_true, if_false]
    unfold commitFailFinishBlock
    cases rOk
    · simp only [Bool.false_eq_true, if_false]
      exact hasTx_finalizeTx _ id
    · simp only [if_true]
      exact hasTx_finalizeTx _ id
  · simp only [if_true]
    exact hasTx_finalizeTx _ id

theorem hasTx_rollback_live {st : SysState} {id : String} {e : TEntry} (hne : id ≠ "")
    (hhas : hasTx st id = true) (hl : lookupTx st.heap id = some e)
    (hrel : e.released = false) (rOk : Bool) :
    hasTx (handleExecuteRollback st id rOk).1 id = false := by
  rw [handleExecuteRollback_live hne hhas hl hrel]
  unfold rollbackAfterBlock
  cases rOk
  · simp only [Bool.false_eq_true, if_false]
    exact hasTx_finalizeTx _ id
  · simp only [if_true]
    exact hasTx_finalizeTx _ id

/-- C2.  Explicit commit and rollback are idempotent.  On an identifier
absent from the registry both fail with `TransactionNotFound` and leave the
state untouched.  On an entry whose `released` flag is already set both
fail with `AlreadyReleased` and remove the stale entry.  After a first
explicit resolution of a live entry the identifier is gone from the
registry, and a second call fails with `TransactionNotFound` returning the
state completely unchanged — in particular it performs no further release
call and issues no further `COMMIT` or `ROLLBACK` (the state carries the
release and query logs, and it is returned verbatim).  The missing-id
validation error is excluded by the `id ≠ ""` hypothesis (the code answers
a missing identifier with its own validation message). -/
theorem commit_rollback_idempotent (st : SysState) (id : String)
    (cOk rOk cOk2 rOk2 : Bool) (hne : id ≠ "") :
    (hasTx st id = false →
       handleExecuteCommit st id cOk rOk = (st, TxResult.notFound) ∧
       handleExecuteRollback st id rOk = (st, TxResult.notFound)) ∧
    (∀ e, hasTx st id = true → lookupTx st.heap id = some e → e.released = true →
       handleExecuteCommit st id cOk rOk = (removeReg st id, TxResult.alreadyReleased) ∧
       handleExecuteRollback st id rOk = (removeReg st id, TxResult.alreadyReleased)) ∧
    (∀ e, hasTx st id = true → lookupTx st.heap id = some e → e.released = false →
       ((cOk = true → (handleExecuteCommit st id cOk rOk).2 = TxResult.committed) ∧
        hasTx (handleExecuteCommit st id cOk rOk).1 id = false ∧
        handleExecuteCommit (handleExecuteCommit st id cOk rOk).1 id cOk2 rOk2 =
          ((handleExecuteCommit st id cOk rOk).1, TxResult.notFound)) ∧
       ((rOk = true → (handleExecuteRollback st id rOk).2 = TxResult.rolledBack) ∧
        hasTx (handleExecuteRollback st id rOk).1 id = false ∧
        handleExecuteRollback (handleExecuteRollback st id rOk).1 id rOk2 =
          ((handleExecuteRollback st id rOk).1, TxResult.notFound))) := by
  refine ⟨?_, ?_, ?_⟩
  · intro h
    exact ⟨commit_notFound hne h cOk rOk, rollback_notFound hne h rOk⟩
  · intro e hhas hl hrel
    constructor
    · simp [handleExecuteCommit, commitStartBlock, hne, hhas, hl, hrel]
    · simp [handleExecuteRollback, rollbackStartBlock, hne, hhas, hl, hrel]
  · intro e hhas hl hrel
    refine ⟨⟨?_, hasTx_commit_live hne hhas hl hrel cOk rOk, ?_⟩,
            ⟨?_, hasTx_rollback_live hne hhas hl hrel rOk, ?_⟩⟩
    · intro hc
      subst hc
      rw [handleExecuteCommit_live hne hhas hl hrel]
      simp
    · exact commit_notFound hne (hasTx_commit_live hne hhas hl hrel cOk rOk) cOk2 rOk2
    · intro hr
      subst hr
      rw [handleExecuteRollback_live hne hhas hl hrel]
      simp
    · exact rollback_notFound hne (hasTx_rollback_live hne hhas hl hrel rOk) rOk2

theorem commit_rollback_idempotent_witness :
    ("t1" : String) ≠ "" ∧ hasTx stA "t1" = true ∧
    lookupTx stA.heap "t1" = some e1 ∧ e1.released = false ∧
    ((handleExecuteCommit stA "t1" true true).2 = TxResult.committed ∧
     hasTx (handleExecuteCommit stA "t1" true true).1 "t1" = false ∧
     handleExecuteCommit (handleExecuteCommit stA "t1" true true).1 "t1" true true =
       ((handleExecuteCommit stA "t1" true true).1, TxResult.notFound)) :=
  ⟨by decide, by decide, by decide, by decide,
   ((commit_rollback_idempotent stA "t1" true true true true (by decide)).2.2
       e1 (by decide) (by decide) (by decide)).1.1 rfl,
   ((commit_rollback_idempotent stA "t1" true true true true (by decide)).2.2
       e1 (by decide) (by decide) (by decide)).1.2.1,
   ((commit_rollback_idempotent stA "t1" true true true true (by decide)).2.2
       e1 (by decide) (by decide) (by decide)).1.2.2⟩

/-- C4 counterexample.  The claim asserts that an execution failure during
a read-only query triggers an immediate rollback followed by a release
before the error is surfaced.  On `SELECT 1` with a failing execution the
handler releases the connection (via its scoped `finally`) and surfaces the
error, but the complete query log contains no `ROLLBACK`: the read path
never issues one. -/
theorem read_query_failure_no_rollback :
    (handleExecuteQuery initState "SELECT 1".data "c1" true false true).2 =
      QueryResult.queryFailed ∧
    (handleExecuteQuery initState "SELECT 1".data "c1" true false true).1.queryLog =
      [("c1", "BEGIN TRANSACTION READ ONLY".data), ("c1", "SELECT 1".data)] ∧
    (handleExecuteQuery initState "SELECT 1".data "c1" true false true).1.releaseCalls =
      ["c1"] := by decide

/-- C4 (amended).  An execution failure during a read-only query releases
the connection before surfacing the error but issues no rollback (the
returned state is exactly the input state plus the connect, the `BEGIN
TRANSACTION READ ONLY`, the failed statement, and one release call); an
execution failure of the initial write-execute statement issues `ROLLBACK`
and then releases the connection before the error is surfaced (and when
its cleanup `ROLLBACK` succeeds the surfaced failure is `StatementFailed`). -/
theorem execution_failure_cleanup (st : SysState) (c : String) :
    (∀ sql k, sql.isEmpty = false → isReadOnlyQuery sql = true →
       handleExecuteQuery st sql c true false k =
         (safelyReleaseClient
           (logQ (logQ (connectC st c) c "BEGIN TRANSACTION READ ONLY".data) c sql) c,
          QueryResult.queryFailed)) ∧
    (∀ sql now r, sql.isEmpty = false →
       (handleExecuteDML st sql c now true false r).1 =
         safelyReleaseClient
           (logQ (logQ (logQ (connectC st c) c "BEGIN".data) c sql) c "ROLLBACK".data) c ∧
       (r = true →
         (handleExecuteDML st sql c now true false r).2 = DmlResult.statementFailed sql)) := by
  constructor
  · intro sql k hsql hro
    simp [handleExecuteQuery, hsql, hro]
  · intro sql now r hsql
    constructor
    · cases r <;> simp [handleExecuteDML, hsql]
    · intro hr
      subst hr
      simp [handleExecuteDML, hsql]

theorem execution_failure_cleanup_witness :
    ("SELECT 1".data.isEmpty = false ∧ isReadOnlyQuery "SELECT 1".data = true ∧
     handleExecuteQuery initState "SELECT 1".data "c1" true false true =
       (safelyReleaseClient
         (logQ (logQ (connectC initState "c1") "c1" "BEGIN TRANSACTION READ ONLY".data)
           "c1" "SELECT 1".data) "c1",
        QueryResult.queryFailed)) ∧
    ("DROP TABLE t".data.isEmpty = false ∧
     (handleExecuteDML initState "DROP TABLE t".data "c2" 0 true false true).2 =
       DmlResult.statementFailed "DROP TABLE t".data) :=
  ⟨⟨by decide, by decide,
    (execution_failure_cleanup initState "c1").1 "SELECT 1".data true (by decide) (by decide)⟩,
   ⟨by decide,
    ((execution_failure_cleanup initState "c2").2 "DROP TABLE t".data 0 true (by decide)).2 rfl⟩⟩

/-- C5 counterexample.  The claim asserts that a request whose SQL is not
read-only is rejected before any connection is acquired, at zero resource
cost.  On `INSERT INTO t VALUES (1)` the handler acquires a pooled
connection first (`pool.connect()` is its first statement) and only then
rejects at the classifier check, releasing the freshly acquired connection
(twice — once explicitly and once via the scoped `finally`; the second
call is absorbed). -/
theorem query_rejection_acquires_connection :
    (handleExecuteQuery initState "INSERT INTO t VALUES (1)".data "c1" true true true).2 =
      QueryResult.notReadOnly ∧
    (handleExecuteQuery initState "INSERT INTO t VALUES (1)".data "c1" true true true).1.connects =
      ["c1"] ∧
    (handleExecuteQuery initState "INSERT INTO t VALUES (1)".data "c1" true true
      true).1.releaseCalls = ["c1", "c1"] := by decide

/-- C5 (amended).  A read-query request whose SQL is missing or not
classified read-only is rejected (`NotReadOnly` for a non-read-only
statement) at the classifier check: a pooled connection is acquired first,
but it is released immediately at the check — before any transaction is
begun or any statement executed (the query log is untouched) — and is never
held past the check. -/
theorem query_rejected_at_classifier (st : SysState) (c : String) (b e k : Bool) :
    (∀ sql, sql.isEmpty = false → isReadOnlyQuery sql = false →
       handleExecuteQuery st sql c b e k =
         (safelyReleaseClient (safelyReleaseClient (connectC st c) c) c,
          QueryResult.notReadOnly) ∧
       (handleExecuteQuery st sql c b e k).1.queryLog = st.queryLog ∧
       (handleExecuteQuery st sql c b e k).1.connects = st.connects ++ [c] ∧
       (handleExecuteQuery st sql c b e k).1.releaseCalls = st.releaseCalls ++ [c, c]) ∧
    (handleExecuteQuery st [] c b e k =
       (safelyReleaseClient (safelyReleaseClient (connectC st c) c) c, QueryResult.noSql)) := by
  constructor
  · intro sql hsql hro
    refine ⟨by simp [handleExecuteQuery, hsql, hro], ?_, ?_, ?_⟩ <;>
      simp [handleExecuteQuery, hsql, hro, safelyReleaseClient, logQ, connectC]
  · simp [handleExecuteQuery]

theorem query_rejected_at_classifier_witness :
    ("DELETE FROM t".data.isEmpty = false ∧
     isReadOnlyQuery "DELETE FROM t".data = false ∧
     (handleExecuteQuery initState "DELETE FROM t".data "c1" true true true).2 =
       QueryResult.notReadOnly ∧
     (handleExecuteQuery initState "DELETE FROM t".data "c1" true true true).1.queryLog = [] ∧
     (handleExecuteQuery initState "DELETE FROM t".data "c1" true true true).1.connects =
       ["c1"]) :=
  ⟨by decide, by decide,
   by rw [((query_rejected_at_classifier initState "c1" true true true).1
       "DELETE FROM t".data (by decide) (by decide)).1],
   ((query_rejected_at_classifier initState "c1" true true true).1
       "DELETE FROM t".data (by decide) (by decide)).2.1,
   by simpa using ((query_rejected_at_classifier initState "c1" true true true).1
       "DELETE FROM t".data (by decide) (by decide)).2.2.1⟩

theorem handleExecuteDML_connects (st : SysState) (sql : List Char) (freshId : String)
    (now : Nat) (b e r : Bool) :
    (handleExecuteDML st sql freshId now b e r).1.connects = st.connects ++ [freshId] := by
  unfold handleExecuteDML
  split_ifs <;> simp [safelyReleaseClient, logQ, connectC, addTransaction]

/-- C6.  A write-execute request is rejected with `TooManyTransactions`
when the registry count has reached the configured ceiling, with no state
change at all — in particular no connection is acquired; below the ceiling
the request proceeds into `handleExecuteDML` (which acquires a connection).
Removing any registry entry strictly decreases the count, so once one
entry is resolved a registry previously at the ceiling is below it and the
next write-execute proceeds. -/
theorem dml_concurrency_ceiling (st : SysState) (maxConcurrent : Nat) (sql : List Char)
    (freshId : String) (now : Nat) (b e r : Bool) :
    (maxConcurrent ≤ st.registry.length →
       executeDmlTool st maxConcurrent sql freshId now b e r = (st, DmlToolResult.tooMany)) ∧
    (st.registry.length < maxConcurrent →
       executeDmlTool st maxConcurrent sql freshId now b e r =
         ((handleExecuteDML st sql freshId now b e r).1,
          DmlToolResult.handled (handleExecuteDML st sql freshId now b e r).2) ∧
       (executeDmlTool st maxConcurrent sql freshId now b e r).1.connects =
         st.connects ++ [freshId]) ∧
    (∀ id, id ∈ st.registry → (removeReg st id).registry.length < st.registry.length) := by
  refine ⟨?_, ?_, ?_⟩
  · intro h
    simp [executeDmlTool, h]
  · intro h
    have h' : ¬ maxConcurrent ≤ st.registry.length := Nat.not_le.mpr h
    refine ⟨by simp [executeDmlTool, h'], ?_⟩
    rw [(by simp [executeDmlTool, h'] :
      executeDmlTool st maxConcurrent sql freshId now b e r =
        ((handleExecuteDML st sql freshId now b e r).1,
         DmlToolResult.handled (handleExecuteDML st sql freshId now b e r).2))]
    exact handleExecuteDML_connects st sql freshId now b e r
  · intro id hid
    simp only [removeReg]
    apply List.length_filter_lt_length_iff_exists.mpr
    exact ⟨id, hid, by simp⟩

theorem dml_concurrency_ceiling_witness :
    ((1 : Nat) ≤ stA.registry.length ∧
     executeDmlTool stA 1 "INSERT INTO t VALUES (2)".data "t2" 5 true true true =
       (stA, DmlToolResult.tooMany)) ∧
    ("t1" ∈ stA.registry ∧ (removeReg stA "t1").registry.length < stA.registry.length) ∧
    ((removeReg stA "t1").registry.length < 1 ∧
     executeDmlTool (removeReg stA "t1") 1 "INSERT INTO t VALUES (2)".data "t2" 5 true true true =
       ((handleExecuteDML (removeReg stA "t1") "INSERT INTO t VALUES (2)".data "t2" 5
           true true true).1,
        DmlToolResult.handled (handleExecuteDML (removeReg stA "t1")
          "INSERT INTO t VALUES (2)".data "t2" 5 true true true).2)) :=
  ⟨⟨by decide,
    (dml_concurrency_ceiling stA 1 "INSERT INTO t VALUES (2)".data "t2" 5 true true true).1
      (by decide)⟩,
   ⟨by decide,
    (dml_concurrency_ceiling stA 1 "INSERT INTO t VALUES (2)".data "t2" 5 true true true).2.2
      "t1" (by decide)⟩,
   ⟨by decide,
    ((dml_concurrency_ceiling (removeReg stA "t1") 1 "INSERT INTO t VALUES (2)".data "t2" 5
        true true true).2.1 (by decide)).1⟩⟩

/-- C7 counterexample.  The claim asserts that on execution failure the
failure result carries the offending SQL.  When the failed statement's
cleanup `ROLLBACK` itself fails, the rollback error propagates through the
outer catch (which releases the connection and rethrows), so the surfaced
failure is the rethrown error and does not carry the SQL — and the
transaction was only attempted, not successfully rolled back. -/
theorem dml_double_failure_loses_sql :
    (handleExecuteDML initState "UPDATE t".data "t1" 0 true false false).2 =
      DmlResult.thrown ∧
    (handleExecuteDML initState "UPDATE t".data "t1" 0 true false false).1.releaseCalls =
      ["t1"] ∧
    (handleExecuteDML initState "UPDATE t".data "t1" 0 true false false).1.registry =
      [] := by decide

/-- C7 (amended).  A write-execute call creates a registry entry iff the
statement executes without error: on success exactly one new entry is
appended (with the connection kept checked out — no release call); on
execution failure `ROLLBACK` is issued, the connection is released, no
registry entry exists for the transaction, and the failure result carries
the offending SQL provided the cleanup rollback succeeds — if that rollback
also fails, the rollback error is surfaced instead (without the SQL) while
the connection is still released; a failed `BEGIN` likewise releases and
registers nothing. -/
theorem dml_registers_iff_success (st : SysState) (sql : List Char) (freshId : String)
    (now : Nat) (b e r : Bool) (hsql : sql.isEmpty = false)
    (hfresh : lookupTx st.heap freshId = none) (hreg : freshId ∉ st.registry) :
    ((handleExecuteDML st sql freshId now b e r).2 = DmlResult.pending freshId ↔
       (b = true ∧ e = true)) ∧
    (b = true → e = true →
       (handleExecuteDML st sql freshId now b e r).1.registry = st.registry ++ [freshId] ∧
       lookupTx (handleExecuteDML st sql freshId now b e r).1.heap freshId =
         some ⟨now, sql.take 100, TxState.active, false⟩ ∧
       (handleExecuteDML st sql freshId now b e r).1.releaseCalls = st.releaseCalls) ∧
    (b = true → e = false →
       freshId ∉ (handleExecuteDML st sql freshId now b e r).1.registry ∧
       (handleExecuteDML st sql freshId now b e r).1.registry = st.registry ∧
       lookupTx (handleExecuteDML st sql freshId now b e r).1.heap freshId = none ∧
       (handleExecuteDML st sql freshId now b e r).1.releaseCalls =
         st.releaseCalls ++ [freshId] ∧
       (freshId, "ROLLBACK".data) ∈ (handleExecuteDML st sql freshId now b e r).1.queryLog ∧
       (r = true →
         (handleExecuteDML st sql freshId now b e r).2 = DmlResult.statementFailed sql) ∧
       (r = false → (handleExecuteDML st sql freshId now b e r).2 = DmlResult.thrown)) ∧
    (b = false →
       (handleExecuteDML st sql freshId now b e r).1.registry = st.registry ∧
       (handleExecuteDML st sql freshId now b e r).1.releaseCalls =
         st.releaseCalls ++ [freshId]) := by
  refine ⟨?_, ?_, ?_, ?_⟩
  · constructor
    · intro hres
      cases b
      · simp [handleExecuteDML, hsql] at hres
      · cases e
        · cases r <;> simp [handleExecuteDML, hsql] at hres
        · exact ⟨rfl, rfl⟩
    · rintro ⟨rfl, rfl⟩
      simp [handleExecuteDML, hsql]
  · rintro rfl rfl
    refine ⟨?_, ?_, ?_⟩ <;>
      simp [handleExecuteDML, hsql, addTransaction, logQ, connectC, lookupTx_cons]
  · rintro rfl rfl
    refine ⟨?_, ?_, ?_, ?_, ?_, ?_, ?_⟩
    · cases r <;>
        simp [handleExecuteDML, hsql, safelyReleaseClient, logQ, connectC, hreg]
    · cases r <;> simp [handleExecuteDML, hsql, safelyReleaseClient, logQ, connectC]
    · cases r <;>
        simp [handleExecuteDML, hsql, safelyReleaseClient, logQ, connectC, hfresh]
    · cases r <;> simp [handleExecuteDML, hsql, safelyReleaseClient, logQ, connectC]
    · cases r <;> simp [handleExecuteDML, hsql, safelyReleaseClient, logQ, connectC]
    · rintro rfl
      simp [handleExecuteDML, hsql]
    · rintro rfl
      simp [handleExecuteDML, hsql]
  · rintro rfl
    constructor <;> simp [handleExecuteDML, hsql, safelyReleaseClient, logQ, connectC]

theorem dml_registers_iff_success_witness :
    ("INSERT INTO t VALUES (1)".data.isEmpty = false ∧
     lookupTx initState.heap "t1" = none ∧ "t1" ∉ initState.registry ∧
     ((handleExecuteDML initState "INSERT INTO t VALUES (1)".data "t1" 7 true true true).2 =
        DmlResult.pending "t1") ∧
     (handleExecuteDML initState "INSERT INTO t VALUES (1)".data "t1" 7 true true
        true).1.registry = ["t1"] ∧
     (handleExecuteDML initState "INSERT INTO t VALUES (1)".data "t1" 7 true true
        true).1.releaseCalls = []) :=
  ⟨by decide, by decide, by decide,
   (dml_registers_iff_success initState "INSERT INTO t VALUES (1)".data "t1" 7 true true true
      (by decide) (by decide) (by decide)).1.mpr ⟨rfl, rfl⟩,
   by simpa using ((dml_registers_iff_success initState "INSERT INTO t VALUES (1)".data "t1" 7
      true true true (by decide) (by decide) (by decide)).2.1 rfl rfl).1,
   by simpa using ((dml_registers_iff_success initState "INSERT INTO t VALUES (1)".data "t1" 7
      true true true (by decide) (by decide) (by decide)).2.1 rfl rfl).2.2⟩

theorem cleanupTransactions_registry_empty :
    ∀ (ids : List String) (st : SysState) (f : String → Bool),
      (cleanupTransactions st ids f).registry = [] := by
  intro ids
  induction ids with
  | nil => intro st f; rfl
  | cons id rest ih =>
    intro st f
    unfold cleanupTransactions
    cases hl : lookupTx st.heap id with
    | none => exact ih st f
    | some e =>
      by_cases hrel : e.released = true
      · simp only [hrel, if_true]
        exact ih _ f
      · dsimp only
        rw [if_neg hrel]
        by_cases hf : f id = true
        · rw [if_pos hf]
          exact ih _ f
        · rw [if_neg hf]
          exact ih _ f

theorem cleanup_releaseCalls_mono :
    ∀ (ids : List String) (st : SysState) (f : String → Bool) (x : String),
      x ∈ st.releaseCalls → x ∈ (cleanupTransactions st ids f).releaseCalls := by
  intro ids
  induction ids with
  | nil => intro st f x hx; exact hx
  | cons id rest ih =>
    intro st f x hx
    unfold cleanupTransactions
    cases hl : lookupTx st.heap id with
    | none => exact ih st f x hx
    | some e =>
      by_cases hrel : e.released = true
      · simp only [hrel, if_true]
        exact ih _ f x (by simpa [removeReg] using hx)
      · dsimp only
        rw [if_neg hrel]
        have hx' : ∀ m : SysState, x ∈ m.releaseCalls →
            x ∈ (finalizeTx m id).releaseCalls := by
          intro m hm
          unfold finalizeTx
          cases lookupTx m.heap id <;>
            simp [removeReg, safelyReleaseClient, setTx, hm]
        by_cases hf : f id = true
        · rw [if_pos hf]
          exact ih _ f x (hx' _ (by simpa [logQ] using hx))
        · rw [if_neg hf]
          exact ih _ f x (hx' _ (by simpa [logQ, logErr] using hx))

theorem cleanup_queryLog_mono :
    ∀ (ids : List String) (st : SysState) (f : String → Bool) (x : String × List Char),
      x ∈ st.queryLog → x ∈ (cleanupTransactions st ids f).queryLog := by
  intro ids
  induction ids with
  | nil => intro st f x hx; exact hx
  | cons id rest ih =>
    intro st f x hx
    unfold cleanupTransactions
    cases hl : lookupTx st.heap id with
    | none => exact ih st f x hx
    | some e =>
      by_cases hrel : e.released = true
      · simp only [hrel, if_true]
        exact ih _ f x (by simpa [removeReg] using hx)
      · dsimp only
        rw [if_neg hrel]
        have hx' : ∀ m : SysState, x ∈ m.queryLog → x ∈ (finalizeTx m id).queryLog := by
          intro m hm
          unfold finalizeTx
          cases lookupTx m.heap id <;>
            simp [removeReg, safelyReleaseClient, setTx, hm]
        by_cases hf : f id = true
        · rw [if_pos hf]
          exact ih _ f x (hx' _ (by simp [logQ, hx]))
        · rw [if_neg hf]
          exact ih _ f x (hx' _ (by simp [logQ, logErr, hx]))

theorem cleanup_released_stays :
    ∀ (ids : List String) (st : SysState) (f : String → Bool) (id : String) (e : TEntry),
      lookupTx st.heap id = some e → e.released = true →
      ∃ e', lookupTx (cleanupTransactions st ids f).heap id = some e' ∧
        e'.released = true := by
  intro ids
  induction ids with
  | nil => intro st f id e hl hrel; exact ⟨e, hl, hrel⟩
  | cons id0 rest ih =>
    intro st f id e hl hrel
    unfold cleanupTransactions
    cases hl0 : lookupTx st.heap id0 with
    | none => exact ih st f id e hl hrel
    | some e0 =>
      by_cases hrel0 : e0.released = true
      · simp only [hrel0, if_true]
        exact ih _ f id e (by simpa [removeReg] using hl) hrel
      · dsimp only
        rw [if_neg hrel0]
        have hne : id0 ≠ id := by
          intro hx
          subst hx
          rw [hl0] at hl
          rw [Option.some_injective _ hl] at hrel0
          exact hrel0 hrel
        have hl' : ∀ m : SysState, m.heap = st.heap →
            lookupTx (finalizeTx m id0).heap id = some e := by
          intro m hm
          unfold finalizeTx
          cases hlm : lookupTx m.heap id0 <;>
            simp [removeReg, safelyReleaseClient, setTx, lookupTx_cons, hne, hm, hl]
        by_cases hf : f id0 = true
        · rw [if_pos hf]
          exact ih _ f id e (hl' _ (by simp [logQ])) hrel
        · rw [if_neg hf]
          exact ih _ f id e (hl' _ (by simp [logQ, logErr])) hrel

theorem cleanup_processes :
    ∀ (ids : List String) (st : SysState) (f : String → Bool) (id : String) (e : TEntry),
      id ∈ ids → lookupTx st.heap id = some e → e.released = false →
      ∃ e', lookupTx (cleanupTransactions st ids f).heap id = some e' ∧
        e'.released = true ∧
        id ∈ (cleanupTransactions st ids f).releaseCalls ∧
        (id, "ROLLBACK".data) ∈ (cleanupTransactions st ids f).queryLog := by
  intro ids
  induction ids with
  | nil => intro st f id e hmem; exact absurd hmem (List.not_mem_nil id)
  | cons id0 rest ih =>
    intro st f id e hmem hl hrel
    by_cases hid : id0 = id
    · subst hid
      unfold cleanupTransactions
      rw [hl]
      dsimp only
      rw [if_neg (by rw [hrel]; exact Bool.false_ne_true)]
      have key : ∀ m : SysState, m.heap = st.heap →
          id0 ∈ m.releaseCalls ∨ True →
          (id0, "ROLLBACK".data) ∈ m.queryLog →
          ∃ e', lookupTx (cleanupTransactions (finalizeTx m id0) rest f).heap id0 = some e' ∧
            e'.released = true ∧
            id0 ∈ (cleanupTransactions (finalizeTx m id0) rest f).releaseCalls ∧
            (id0, "ROLLBACK".data) ∈ (cleanupTransactions (finalizeTx m id0) rest f).queryLog := by
        intro m hm _ hq
        have hfin : lookupTx (finalizeTx m id0).heap id0 =
            some { e with released := true } := by
          unfold finalizeTx
          rw [hm, hl]
          simp [removeReg, safelyReleaseClient, setTx, lookupTx_cons]
        have hrc : id0 ∈ (finalizeTx m id0).releaseCalls := by
          unfold finalizeTx
          rw [hm, hl]
          simp [removeReg, safelyReleaseClient, setTx]
        have hql : (id0, "ROLLBACK".data) ∈ (finalizeTx m id0).queryLog := by
          unfold finalizeTx
          rw [hm, hl]
          simpa [removeReg, safelyReleaseClient, setTx] using hq
        rcases cleanup_released_stays rest (finalizeTx m id0) f id0 _ hfin rfl
          with ⟨e', he', hrel'⟩
        exact ⟨e', he', hrel',
          cleanup_releaseCalls_mono rest _ f id0 hrc,
          cleanup_queryLog_mono rest _ f _ hql⟩
      by_cases hf : f id0 = true
      · rw [if_pos hf]
        exact key _ (by simp [logQ]) (Or.inr trivial) (by simp [logQ])
      · rw [if_neg hf]
        exact key _ (by simp [logQ, logErr]) (Or.inr trivial) (by simp [logQ, logErr])
    · have hmem' : id ∈ rest := by
        cases List.mem_cons.mp hmem with
        | inl hx => exact absurd hx.symm hid
        | inr hx => exact hx
      unfold cleanupTransactions
      cases hl0 : lookupTx st.heap id0 with
      | none => exact ih st f id e hmem' hl hrel
      | some e0 =>
        by_cases hrel0 : e0.released = true
        · simp only [hrel0, if_true]
          exact ih _ f id e hmem' (by simpa [removeReg] using hl) hrel
        · dsimp only
          rw [if_neg hrel0]
          have hl' : ∀ m : SysState, m.heap = st.heap →
              lookupTx (finalizeTx m id0).heap id = some e := by
            intro m hm
            unfold finalizeTx
            cases hlm : lookupTx m.heap id0 <;>
              simp [removeReg, safelyReleaseClient, setTx, lookupTx_cons, hid, hm, hl]
          by_cases hf : f id0 = true
          · rw [if_pos hf]
            exact ih _ f id e hmem' (hl' _ (by simp [logQ])) hrel
          · rw [if_neg hf]
            exact ih _ f id e hmem' (hl' _ (by simp [logQ, logErr])) hrel

/-- C9.  The shutdown drain `cleanupTransactions`, run over the snapshot of
the registry with an arbitrary per-entry rollback outcome `f`: after the
drain the registry is empty (`activeTransactions.clear()`), and every
snapshot entry that was not yet released has been rolled back (a `ROLLBACK`
was issued on its client), marked `released`, and had its connection
released — whether or not its rollback succeeded, since the failure branch
performs the identical finalization and the drain continues with the next
entry.  Entries already marked released are removed without any action. -/
theorem shutdown_drain (st : SysState) (f : String → Bool) :
    (cleanupTransactions st st.registry f).registry = [] ∧
    (∀ id e, id ∈ st.registry → lookupTx st.heap id = some e → e.released = false →
       ∃ e', lookupTx (cleanupTransactions st st.registry f).heap id = some e' ∧
         e'.released = true ∧
         id ∈ (cleanupTransactions st st.registry f).releaseCalls ∧
         (id, "ROLLBACK".data) ∈ (cleanupTransactions st st.registry f).queryLog) :=
  ⟨cleanupTransactions_registry_empty st.registry st f,
   fun id e hmem hl hrel => cleanup_processes st.registry st f id e hmem hl hrel⟩

theorem shutdown_drain_witness :
    ((cleanupTransactions stB stB.registry drainF).registry = []) ∧
    ("a" ∈ stB.registry ∧
     lookupTx stB.heap "a" = some ⟨0, "DELETE 1".data, TxState.active, false⟩ ∧
     drainF "a" = false ∧
     (∃ e', lookupTx (cleanupTransactions stB stB.registry drainF).heap "a" = some e' ∧
        e'.released = true ∧
        "a" ∈ (cleanupTransactions stB stB.registry drainF).releaseCalls ∧
        ("a", "ROLLBACK".data) ∈ (cleanupTransactions stB stB.registry drainF).queryLog)) ∧
    ("b" ∈ stB.registry ∧
     (∃ e', lookupTx (cleanupTransactions stB stB.registry drainF).heap "b" = some e' ∧
        e'.released = true ∧
        "b" ∈ (cleanupTransactions stB stB.registry drainF).releaseCalls ∧
        ("b", "ROLLBACK".data) ∈ (cleanupTransactions stB stB.registry drainF).queryLog)) :=
  ⟨(shutdown_drain stB drainF).1,
   ⟨by decide, by decide, by decide,
    (shutdown_drain stB drainF).2 "a" ⟨0, "DELETE 1".data, TxState.active, false⟩
      (by decide) (by decide) (by decide)⟩,
   ⟨by decide,
    (shutdown_drain stB drainF).2 "b" ⟨0, "DELETE 2".data, TxState.active, false⟩
      (by decide) (by decide) (by decide)⟩⟩

end PgMcp
